import Mathlib

/-!
Verification of the core custodial-wallet pipeline (Go sources under
internal/wallet, internal/riskcontrol, internal/deposit, internal/keymanager
and the withdrawal service) against its natural-language specification.

Modelling conventions, shared by every definition below:

* Amounts are `decimal(36,18)` columns handled through `decimal.Decimal`
  (exact decimal arithmetic).  The claims use only ordering, addition and
  subtraction, so amounts are embedded as `Int` values in smallest units.
* A GORM `Update` whose `WHERE` clause matches no row reports
  `RowsAffected = 0` and a nil `Error`; it is *not* a Go error.  Repository
  methods built from such updates therefore return plainly updated states and
  have no failure outcome in the model (only genuine DB faults, which are
  outside the embedding, could make them fail).
* `First(...)` with `gorm.ErrRecordNotFound` is translated to `Option`
  (`none` = the repository returns `nil, nil`).
* Timestamps (`time.Now()`, `DATE(created_at)`) are abstract `Nat` values
  threaded as explicit parameters.
-/

namespace CW

/-- Amounts in smallest units (`decimal(36,18)` columns). -/
abbrev Amount := Int

/-! ## Balance ledger (internal/wallet/repository.go) -/

/-- The unique key of a `balances` row: `(user_id, chain, currency)`. -/
structure BalKey where
  userId : Nat
  chain : String
  currency : String
deriving DecidableEq

/-- The mutable part of a `balances` row. -/
structure Balance where
  available : Amount
  frozen : Amount
  pending : Amount
deriving DecidableEq

/-- The `balances` table: at most one row per `(user_id, chain, currency)`
(unique index), so a partial map. -/
def Ledger : Type := BalKey → Option Balance

/-- One SQL `UPDATE balances SET ... WHERE user_id=? AND chain=? AND
currency=? [AND guard]`: rows matching the key and the guard are updated,
all other rows are untouched.  Zero matched rows is not an error. -/
def updateWhere (l : Ledger) (k : BalKey) (guard : Balance → Bool)
    (f : Balance → Balance) : Ledger :=
  fun k2 =>
    match l k2 with
    | none => none
    | some b => if k2 = k ∧ guard b then some (f b) else some b

/-- `IncrementBalance`: unguarded `available += amount`. -/
def IncrementBalance (l : Ledger) (k : BalKey) (amount : Amount) : Ledger :=
  updateWhere l k (fun _ => true)
    (fun b => { b with available := b.available + amount })

/-- `DecrementBalance`: `available -= amount` guarded by
`WHERE available >= amount`.  When the guard fails the update matches no row
and GORM reports no error. -/
def DecrementBalance (l : Ledger) (k : BalKey) (amount : Amount) : Ledger :=
  updateWhere l k (fun b => amount ≤ b.available)
    (fun b => { b with available := b.available - amount })

/-- `FreezeBalance`: a transaction of two statements.  The first decrements
`available` guarded by `available >= amount`; the second increments `frozen`
*unconditionally*.  Neither statement errors on zero matched rows, so the
transaction always commits (absent DB faults). -/
def FreezeBalance (l : Ledger) (k : BalKey) (amount : Amount) : Ledger :=
  let l1 := updateWhere l k (fun b => amount ≤ b.available)
    (fun b => { b with available := b.available - amount })
  updateWhere l1 k (fun _ => true)
    (fun b => { b with frozen := b.frozen + amount })

/-- `UnfreezeBalance`: first `frozen -= amount` guarded by
`frozen >= amount`, then `available += amount` unconditionally. -/
def UnfreezeBalance (l : Ledger) (k : BalKey) (amount : Amount) : Ledger :=
  let l1 := updateWhere l k (fun b => amount ≤ b.frozen)
    (fun b => { b with frozen := b.frozen - amount })
  updateWhere l1 k (fun _ => true)
    (fun b => { b with available := b.available + amount })

/-- Repository `GetBalance`: a pure row lookup (`First` with
`ErrRecordNotFound → nil, nil`). -/
def GetBalanceRow (l : Ledger) (k : BalKey) : Option Balance := l k

/-! ## Wallet service balance read (internal/wallet/service.go, GetBalance) -/

/-- Service `GetBalance`: looks the row up; when absent it returns a fresh
zero-valued snapshot (`Available = Frozen = Pending = "0"`) built in memory.
The returned ledger is the database after the call: the function performs no
write, so it is the input ledger unchanged. -/
def ServiceGetBalance (l : Ledger) (k : BalKey) : Balance × Ledger :=
  match l k with
  | none => ({ available := 0, frozen := 0, pending := 0 }, l)
  | some b => (b, l)

/-! ## Theorems for C2 and C10 -/

/-- A concrete ledger holding exactly one row, for counterexample runs. -/
def singleRowLedger (k : BalKey) (b : Balance) : Ledger :=
  fun k2 => if k2 = k then some b else none

/-- The (user 1, ethereum, ETH) balance key used by the concrete runs. -/
def ethKey : BalKey := { userId := 1, chain := "ethereum", currency := "ETH" }

/-- Claim C2 (code bug, failing-input evaluation): on a row with
`available = 5, frozen = 0`, `FreezeBalance` of `10` does not fail with
`InsufficientBalance` and does not leave the row unchanged: the guarded
`available` decrement matches no row (no error), and the unconditional second
statement still adds `10` to `frozen`, leaving `available = 5, frozen = 10`.
`DecrementBalance 10` on the same row likewise reports success while
changing nothing. -/
theorem C2_freeze_guard_bypass :
    FreezeBalance (singleRowLedger ethKey { available := 5, frozen := 0, pending := 0 }) ethKey 10 ethKey
      = some { available := 5, frozen := 10, pending := 0 } ∧
    DecrementBalance (singleRowLedger ethKey { available := 5, frozen := 0, pending := 0 }) ethKey 10 ethKey
      = some { available := 5, frozen := 0, pending := 0 } := by
  constructor <;> rfl

/-- Claim C10: for a `(user, chain, currency)` triple with no stored
`balances` row, the service `GetBalance` does not fail: it returns the
all-zero snapshot and leaves the ledger unchanged (no row is created). -/
theorem C10_getbalance_absent_row_zero (l : Ledger) (k : BalKey)
    (h : l k = none) :
    ServiceGetBalance l k = ({ available := 0, frozen := 0, pending := 0 }, l) := by
  unfold ServiceGetBalance
  rw [h]

/-- Witness for C10 at a concrete empty ledger. -/
theorem C10_getbalance_absent_row_zero_witness :
    ServiceGetBalance (fun _ => none) ethKey
      = ({ available := 0, frozen := 0, pending := 0 }, (fun _ => none : Ledger)) :=
  C10_getbalance_absent_row_zero (fun _ => none) ethKey rfl

/-! ## Risk control (internal/riskcontrol) -/

/-- A `blacklists` row (columns read by `CheckBlacklist`). -/
structure Blacklist where
  btype : String
  value : String
  chain : String
  status : Nat
  expiresAt : Option Nat
deriving DecidableEq

/-- Repository `CheckBlacklist`: counts rows with matching type/value,
`status = 1`, chain equal to the argument or empty (only when the argument
chain is non-empty), and not expired (`expires_at IS NULL OR expires_at >
NOW()`); reports whether the count is positive. -/
def CheckBlacklist (bls : List Blacklist) (now : Nat) (btype value chain : String) : Bool :=
  bls.any (fun b =>
    b.btype == btype && b.value == value && b.status == 1 &&
    (chain == "" || (b.chain == chain || b.chain == "")) &&
    (match b.expiresAt with
     | none => true
     | some t => now < t))

/-- A `risk_rules` row.  The `condition` column is a JSON string; the model
carries its parsed content for the only rule type the evaluator reads,
`{"max_amount": ...}` (`none` = key absent, non-string, or the whole JSON
unparsable, all of which make `evaluateRule` report no match). -/
structure RiskRule where
  id : Nat
  name : String
  rtype : String
  chain : String
  currency : String
  maxAmount : Option Amount
  action : String
  riskLevel : Int
  priority : Int
  status : Nat
deriving DecidableEq

/-- `evaluateRule`: only `amount_limit` rules are evaluated; the rule matches
when the amount strictly exceeds the parsed `max_amount`.  `frequency_limit`
and `kyc_required` are unimplemented stubs returning no match. -/
def evaluateRule (rule : RiskRule) (amount : Amount) : Bool × String :=
  if rule.rtype == "amount_limit" then
    match rule.maxAmount with
    | some maxAmount => if maxAmount < amount then (true, rule.action) else (false, "")
    | none => (false, "")
  else (false, "")

/-- A `risk_logs` row (the serialized `request_data` JSON blob is outside
the model). -/
structure RiskLog where
  userId : Nat
  action : String
  riskLevel : Int
  result : String
deriving DecidableEq

/-- Risk-control database state.  `rules` is kept in the priority-descending
order in which `ListActiveRules` returns rows. -/
structure RiskState where
  blacklist : List Blacklist
  rules : List RiskRule
  riskLogs : List RiskLog

/-- `ListActiveRules`: rules with `status = 1`. -/
def ListActiveRules (st : RiskState) : List RiskRule :=
  st.rules.filter (fun r => r.status == 1)

/-- `logRiskCheck`: appends a `RiskLog` row. -/
def logRiskCheck (st : RiskState) (userId : Nat) (action : String)
    (riskLevel : Int) (result : String) : RiskState :=
  { st with riskLogs := st.riskLogs ++
      [{ userId := userId, action := action, riskLevel := riskLevel, result := result }] }

/-- The result struct of a risk check. -/
structure RiskCheckResult where
  passed : Bool
  riskLevel : Int
  needManualReview : Bool
  blocked : Bool
  reason : String
  matchedRules : List Nat
deriving DecidableEq

/-- Go `string(rune(userID))`: the string of the single code point `userID`
(the user-blacklist lookup stringifies the numeric id this way; for invalid
code points Go substitutes U+FFFD while `Char.ofNat` substitutes NUL — no
claim observes that difference). -/
def runeString (n : Nat) : String := String.singleton (Char.ofNat n)

/-- The withdrawal risk request (its `Amount` field is a decimal string in
Go, parsed with the error ignored; the model carries the parsed amount). -/
structure WithdrawalRiskRequest where
  userId : Nat
  chain : String
  toAddress : String
  currency : String
  amount : Amount

/-- `CheckWithdrawalRisk`: address blacklist (block, log, return), then user
blacklist (block, *no* log, return), then the active-rule scan folding the
result, then a log of the final outcome.  The Go function returns a nil
error on every path of the model (its error returns are DB faults). -/
def CheckWithdrawalRisk (st : RiskState) (now : Nat) (req : WithdrawalRiskRequest) :
    RiskCheckResult × RiskState :=
  let result0 : RiskCheckResult :=
    { passed := true
      riskLevel := 0
      needManualReview := false
      blocked := false
      reason := ""
      matchedRules := [] }
  if CheckBlacklist st.blacklist now "address" req.toAddress req.chain then
    ({ result0 with passed := false, blocked := true, reason := "address is blacklisted" },
     logRiskCheck st req.userId "withdrawal" 0 "block")
  else if CheckBlacklist st.blacklist now "user" (runeString req.userId) "" then
    ({ result0 with passed := false, blocked := true, reason := "user is blacklisted" }, st)
  else
    let result := (ListActiveRules st).foldl
      (fun acc rule =>
        if rule.chain != "" && rule.chain != req.chain then acc
        else if rule.currency != "" && rule.currency != req.currency then acc
        else
          let m := evaluateRule rule req.amount
          if m.1 then
            let acc := { acc with
              matchedRules := acc.matchedRules ++ [rule.id]
              riskLevel := if acc.riskLevel < rule.riskLevel then rule.riskLevel else acc.riskLevel }
            if m.2 == "block" then
              { acc with passed := false, blocked := true, reason := rule.name }
            else if m.2 == "review" then
              { acc with needManualReview := true }
            else acc
          else acc)
      result0
    let logResult :=
      if result.blocked then "block"
      else if result.needManualReview then "review"
      else "pass"
    (result, logRiskCheck st req.userId "withdrawal" result.riskLevel logResult)

/-! ## Key manager (internal/keymanager, embedded in blockchain/interface.go) -/

/-- An `encrypted_keys` row. -/
structure EncryptedKey where
  id : Nat
  userId : Nat
  chain : String
  publicKey : String
  encryptedPriv : String
  keyType : String
  derivationPath : String
  address : String
  status : Nat
deriving DecidableEq

/-- `SignStatus`: Pending=0, Signed=1, Failed=2, Rejected=3. -/
inductive SignStatus
| pending
| signed
| failed
| rejected
deriving DecidableEq

/-- A `signature_requests` row.  `raw_tx`/`signed_tx` are hex encodings of
the payload and signature bytes in Go; the model stores the payloads
themselves (hex encoding is injective and never inspected). -/
structure SignatureRequest where
  id : Nat
  requestId : String
  userId : Nat
  keyId : Nat
  chain : String
  txHash : String
  rawTx : String
  signedTx : String
  status : SignStatus
  errorMsg : String
  requestedAt : Nat
  signedAt : Option Nat
deriving DecidableEq

/-- Ghost chronological trace of the key manager: creation of
`signature_requests` rows and actual signature computations (the
`ethcrypto.Sign` call inside `Sign`), in program order.  Used to state
claim C9. -/
inductive KmEvent
| sigRequestCreated (requestId : String) (status : SignStatus)
| signaturePerformed (chain address txData : String)
deriving DecidableEq

/-- Key-manager database state plus the ghost event trace. -/
structure KmState where
  keys : List EncryptedKey
  nextKeyId : Nat
  sigRequests : List SignatureRequest
  nextSigReqId : Nat
  events : List KmEvent

/-- The external cryptographic libraries (bip39, bip32, go-ethereum crypto,
AES-GCM under the KEK), abstracted as opaque total functions; they are not
part of this repository.  `newMnemonic` is the mnemonic the bip39 entropy
source produces for the call under consideration; `decrypt` returns `none`
on AEAD authentication failure; `signData` returns `none` on cryptographic
signature failure; `childPrivOf master coin index` is the composite BIP44
derivation `m/44h/coinh/0h/0/index` performed by the five `NewChildKey`
steps. -/
structure KmEnv where
  newMnemonic : String
  seedOf : String → String
  masterPrivOf : String → String
  pubOf : String → String
  childPrivOf : String → Nat → Nat → String
  encrypt : String → String
  decrypt : String → Option String
  deriveAddr : String → String → String
  signData : String → String → Option String

/-- Key-manager error values (package-level `errors.New` values plus the two
inline ones). -/
inductive KmErr
| keyNotFound
| invalidKey
| signatureFailed
| encryptionFailed
| decryptionFailed
| notOwner
| masterKeyExists
deriving DecidableEq

/-- The Go error strings, used for `error_msg` columns. -/
def KmErr.message : KmErr → String
| .keyNotFound => "key not found"
| .invalidKey => "invalid key"
| .signatureFailed => "signature failed"
| .encryptionFailed => "encryption failed"
| .decryptionFailed => "decryption failed"
| .notOwner => "key does not belong to user"
| .masterKeyExists => "master key already exists"

/-- Repository `GetMasterKey`: first row with matching user, chain and
`key_type = "master"`. -/
def GetMasterKey (keys : List EncryptedKey) (userId : Nat) (chain : String) :
    Option EncryptedKey :=
  keys.find? (fun k => k.userId == userId && k.chain == chain && k.keyType == "master")

/-- Repository `GetKeyByAddress`: first row with matching chain and address. -/
def GetKeyByAddress (keys : List EncryptedKey) (chain address : String) :
    Option EncryptedKey :=
  keys.find? (fun k => k.chain == chain && k.address == address)

/-- Repository `GetNextDerivationIndex`: the count of derived keys for
(user, chain). -/
def GetNextDerivationIndex (keys : List EncryptedKey) (userId : Nat) (chain : String) : Nat :=
  (keys.filter (fun k => k.userId == userId && k.chain == chain && k.keyType == "derived")).length

/-- `getCoinType`: bitcoin→0, ethereum/bsc/polygon→60, tron→195, unknown→60. -/
def getCoinType (chain : String) : Nat :=
  if chain == "bitcoin" then 0
  else if chain == "ethereum" || chain == "bsc" || chain == "polygon" then 60
  else if chain == "tron" then 195
  else 60

/-- The apostrophe character of BIP44 hardened-path notation. -/
def hardMark : String := "\x27"

/-- The Go format string `m/44'/%d'/0'/0/%d` applied to (coinType, index). -/
def derivationPathStr (coinType index : Nat) : String :=
  "m/44" ++ hardMark ++ "/" ++ toString coinType ++ hardMark ++ "/0" ++ hardMark ++
    "/0/" ++ toString index

/-- `GenerateMasterKey`: refuse when a master exists; otherwise generate a
mnemonic, derive the seed and master key, encrypt the private material under
the KEK, persist a `key_type = "master"` row, and return the row together
with the mnemonic. -/
def GenerateMasterKey (env : KmEnv) (st : KmState) (userId : Nat) (chain : String) :
    Except KmErr (KmState × EncryptedKey × String) :=
  match GetMasterKey st.keys userId chain with
  | some _ => .error .masterKeyExists
  | none =>
    let mnemonic := env.newMnemonic
    let seed := env.seedOf mnemonic
    let masterPriv := env.masterPrivOf seed
    let key : EncryptedKey :=
      { id := st.nextKeyId
        userId := userId
        chain := chain
        publicKey := env.pubOf masterPriv
        encryptedPriv := env.encrypt masterPriv
        keyType := "master"
        derivationPath := ""
        address := ""
        status := 1 }
    .ok ({ st with keys := st.keys ++ [key], nextKeyId := st.nextKeyId + 1 }, key, mnemonic)

/-- `GenerateAddress`: load the master key, auto-creating one when absent
(the mnemonic returned by `GenerateMasterKey` is bound to `_` and
discarded); decrypt it; take the next derivation index from the persisted
derived-key count; derive the BIP44 child and its chain-specific address;
encrypt and persist the derived key; return `(address, derivationPath)`. -/
def GenerateAddress (env : KmEnv) (st : KmState) (userId : Nat) (chain : String) :
    Except KmErr (KmState × String × String) :=
  let masterRes : Except KmErr (KmState × EncryptedKey) :=
    match GetMasterKey st.keys userId chain with
    | some k => .ok (st, k)
    | none =>
      match GenerateMasterKey env st userId chain with
      | .ok (st2, key, _mnemonic) => .ok (st2, key)
      | .error e => .error e
  match masterRes with
  | .error e => .error e
  | .ok (st2, masterKey) =>
    match env.decrypt masterKey.encryptedPriv with
    | none => .error .decryptionFailed
    | some masterPriv =>
      let index := GetNextDerivationIndex st2.keys userId chain
      let coinType := getCoinType chain
      let path := derivationPathStr coinType index
      let childPriv := env.childPrivOf masterPriv coinType index
      let address := env.deriveAddr chain childPriv
      let derivedKey : EncryptedKey :=
        { id := st2.nextKeyId
          userId := userId
          chain := chain
          publicKey := env.pubOf childPriv
          encryptedPriv := env.encrypt childPriv
          keyType := "derived"
          derivationPath := path
          address := address
          status := 1 }
      .ok ({ st2 with keys := st2.keys ++ [derivedKey], nextKeyId := st2.nextKeyId + 1 },
        address, path)

/-- `Sign`: look the key up by (chain, address); check ownership; decrypt;
sign.  A successful signature appends a `signaturePerformed` ghost event
(the `ethcrypto.Sign` call); no table is written. -/
def Sign (env : KmEnv) (st : KmState) (userId : Nat) (chain address txData : String) :
    KmState × Except KmErr String :=
  match GetKeyByAddress st.keys chain address with
  | none => (st, .error .keyNotFound)
  | some key =>
    if key.userId ≠ userId then (st, .error .notOwner)
    else
      match env.decrypt key.encryptedPriv with
      | none => (st, .error .decryptionFailed)
      | some priv =>
        match env.signData priv txData with
        | none => (st, .error .signatureFailed)
        | some signature =>
          ({ st with events := st.events ++ [.signaturePerformed chain address txData] },
           .ok signature)

/-- Repository `UpdateSignatureRequest` (`Save` keyed on the primary id). -/
def UpdateSignatureRequest (st : KmState) (req : SignatureRequest) : KmState :=
  { st with sigRequests := st.sigRequests.map (fun r => if r.id == req.id then req else r) }

/-- The Go return shape of `SignWithRequestID`: `(nil, err)` when the key
lookup fails, `(req, err)` / `(req, nil)` after the request row exists. -/
inductive SignWithReqResult
| keyLookupFailed (e : KmErr)
| completed (req : SignatureRequest) (err : Option KmErr)
deriving DecidableEq

/-- `SignWithRequestID`: look up the key, create a `signature_requests` row
in Pending, then perform the signature via `Sign`, then transition the row
to Signed (with the signature and timestamp) or Failed (with the error
message). -/
def SignWithRequestID (env : KmEnv) (st : KmState) (requestId : String) (userId : Nat)
    (chain address txData : String) (now : Nat) : KmState × SignWithReqResult :=
  match GetKeyByAddress st.keys chain address with
  | none => (st, .keyLookupFailed .keyNotFound)
  | some key =>
    let req : SignatureRequest :=
      { id := st.nextSigReqId
        requestId := requestId
        userId := userId
        keyId := key.id
        chain := chain
        txHash := ""
        rawTx := txData
        signedTx := ""
        status := .pending
        errorMsg := ""
        requestedAt := now
        signedAt := none }
    let st1 : KmState :=
      { st with
        sigRequests := st.sigRequests ++ [req]
        nextSigReqId := st.nextSigReqId + 1
        events := st.events ++ [.sigRequestCreated requestId .pending] }
    let signed := Sign env st1 userId chain address txData
    match signed.2 with
    | .error e =>
      let req2 := { req with status := .failed, errorMsg := e.message }
      (UpdateSignatureRequest signed.1 req2, .completed req2 (some e))
    | .ok signature =>
      let req2 := { req with signedTx := signature, status := .signed, signedAt := some now }
      (UpdateSignatureRequest signed.1 req2, .completed req2 none)

/-- Does every `signaturePerformed` event in the trace come after some
creation of a Pending `signature_requests` row? -/
def signEventsPreceded (evs : List KmEvent) : Bool :=
  (evs.foldl
    (fun acc ev =>
      match ev with
      | .sigRequestCreated _ s => (acc.1 || s == SignStatus.pending, acc.2)
      | .signaturePerformed _ _ _ => (acc.1, acc.2 && acc.1))
    (false, true)).2

/-! ## Chain adapters (internal/blockchain) -/

/-- `TransactionInfo` (the fields the core pipelines read).  `amount` is a
decimal string in Go; `none` models the empty string the scanner skips. -/
structure TxInfo where
  txHash : String
  fromAddress : String
  toAddress : String
  amount : Option Amount
  blockNumber : Nat
  blockHash : String
  confirmations : Int
  status : Nat
deriving DecidableEq

/-- A block as returned by the extended adapter `GetBlock`. -/
structure Block where
  transactions : List String
deriving DecidableEq

/-- An EVM event log as consumed by the ERC20 scan: topics, the big-endian
integer decode of `Data`, the emitting contract address, and the tx hash. -/
structure EthLog where
  topics : List String
  dataAmount : Amount
  address : String
  txHash : String
deriving DecidableEq

/-- One chain adapter (an external RPC client), abstracted: `Option` /
`Except String` failures model wire errors; `hasBlock` / `hasLogs` are the
scanner's interface assertions for `GetBlock` / `GetLogs`. -/
structure ChainAdapter where
  requiredConfirmations : Int
  estimateFee : String → String → Amount → Option Amount
  getTransaction : String → Option TxInfo
  getBlockNumber : Option Nat
  buildTransaction : String → String → Amount → String → Except String String
  broadcastTransaction : String → Except String String
  hasBlock : Bool
  getBlock : Nat → Option Block
  hasLogs : Bool
  getLogs : Nat → Nat → Except String (List EthLog)

/-! ## Withdrawal pipeline (withdrawal service and repository) -/

/-- `WithdrawalStatus`: Pending=0, RiskReview=1, ManualReview=2, Approved=3,
Processing=4, Broadcast=5, Confirming=6, Completed=7, Failed=8, Rejected=9,
Cancelled=10. -/
inductive WithdrawalStatus
| pending
| riskReview
| manualReview
| approved
| processing
| broadcast
| confirming
| completed
| failed
| rejected
| cancelled
deriving DecidableEq

/-- A `withdrawals` row (reviewer-metadata columns never read by the
modelled operations are omitted; `createdDay` is `DATE(created_at)`;
`fee` is `none` when the column holds the empty string). -/
structure Withdrawal where
  id : Nat
  uuid : String
  userId : Nat
  walletId : Nat
  chain : String
  txHash : String
  fromAddress : String
  toAddress : String
  currency : String
  contractAddress : String
  amount : Amount
  fee : Option Amount
  status : WithdrawalStatus
  riskLevel : Int
  riskReview : Bool
  manualReview : Bool
  confirmations : Int
  blockNumber : Nat
  memo : String
  errorMsg : String
  createdDay : Nat
  completedAt : Option Nat
deriving DecidableEq

/-- A `withdrawal_limits` row; `none` amount fields model empty-string
columns, which `checkLimits` skips. -/
structure WithdrawalLimit where
  userId : Nat
  chain : String
  currency : String
  minAmount : Option Amount
  maxAmount : Option Amount
  dailyLimit : Option Amount
deriving DecidableEq

/-- Withdrawal-service database state (tables kept in creation order, the
order the repository queries return). -/
structure WState where
  ledger : Ledger
  withdrawals : List Withdrawal
  limits : List WithdrawalLimit
  risk : RiskState

/-- Repository `GetLimit`: the user-specific row. -/
def GetLimit (limits : List WithdrawalLimit) (userId : Nat) (chain currency : String) :
    Option WithdrawalLimit :=
  limits.find? (fun l => l.userId == userId && l.chain == chain && l.currency == currency)

/-- Repository `GetGlobalLimit`: the `user_id = 0` row. -/
def GetGlobalLimit (limits : List WithdrawalLimit) (chain currency : String) :
    Option WithdrawalLimit :=
  limits.find? (fun l => l.userId == 0 && l.chain == chain && l.currency == currency)

/-- The limit `checkLimits` applies: the user-specific row when present,
else the global row. -/
def effectiveLimit (limits : List WithdrawalLimit) (userId : Nat) (chain currency : String) :
    Option WithdrawalLimit :=
  match GetLimit limits userId chain currency with
  | some l => some l
  | none => GetGlobalLimit limits chain currency

/-- Repository `GetUserDailyWithdrawal`:
`SUM(amount)` over the user's rows for (chain, currency) created today with
status not in {Rejected, Cancelled, Failed} (`COALESCE` gives 0 on the
empty sum). -/
def GetUserDailyWithdrawal (ws : List Withdrawal) (userId : Nat) (chain currency : String)
    (today : Nat) : Amount :=
  ((ws.filter (fun w =>
    w.userId == userId && w.chain == chain && w.currency == currency &&
    w.createdDay == today &&
    !(w.status == WithdrawalStatus.rejected || w.status == WithdrawalStatus.cancelled ||
      w.status == WithdrawalStatus.failed))).map (fun w => w.amount)).foldl (· + ·) 0

/-- Package-level withdrawal errors plus the pass-through adapter / key
manager errors of the background processor. -/
inductive WithdrawErr
| invalidAmount
| withdrawalNotFound
| insufficientBalance
| exceedDailyLimit
| exceedSingleLimit
| belowMinAmount
deriving DecidableEq

/-- `checkLimits`: apply the effective limit; empty fields are skipped; the
checks run in source order  (min, then single-max, then daily with
`dailyTotal + amount > dailyLimit`). -/
def checkLimits (ws : List Withdrawal) (limits : List WithdrawalLimit) (userId : Nat)
    (chain currency : String) (amount : Amount) (today : Nat) : Option WithdrawErr :=
  match effectiveLimit limits userId chain currency with
  | none => none
  | some l =>
    if (match l.minAmount with
        | some minAmount => decide (amount < minAmount)
        | none => false) then
      some .belowMinAmount
    else if (match l.maxAmount with
        | some maxAmount => decide (maxAmount < amount)
        | none => false) then
      some .exceedSingleLimit
    else if (match l.dailyLimit with
        | some dailyLimit =>
          decide (dailyLimit < GetUserDailyWithdrawal ws userId chain currency today + amount)
        | none => false) then
      some .exceedDailyLimit
    else none

/-- `CreateWithdrawalRequest` (the `Amount` field is a decimal string in Go;
the model carries the parsed value, so the invalid-string rejection is
outside the embedding). -/
structure CreateWithdrawalRequest where
  userId : Nat
  walletId : Nat
  chain : String
  toAddress : String
  currency : String
  amount : Amount
  contractAddress : String
  memo : String

/-- `CreateWithdrawal`: balance check (`nil` row or `available < amount` →
InsufficientBalance), limit check, risk check — of whose result only the Go
error (always nil here) is inspected; `riskResult.Blocked` is never read —
then `FreezeBalance`, fee estimation, and insertion of the row whose status
is ManualReview / RiskReview / Approved by the risk flags.  `freshId` models
the autoincrement id and `uuid.New()` is modelled as a string derived from
it.  The rollback on a failed insert is a DB-fault path outside the model. -/
def CreateWithdrawal (blockchains : String → Option ChainAdapter) (st : WState)
    (req : CreateWithdrawalRequest) (now today freshId : Nat) :
    Except WithdrawErr (WState × Withdrawal) :=
  let key : BalKey := { userId := req.userId, chain := req.chain, currency := req.currency }
  match GetBalanceRow st.ledger key with
  | none => .error .insufficientBalance
  | some balance =>
    if balance.available < req.amount then .error .insufficientBalance
    else
      match checkLimits st.withdrawals st.limits req.userId req.chain req.currency
          req.amount today with
      | some e => .error e
      | none =>
        let risk := CheckWithdrawalRisk st.risk now
          { userId := req.userId
            chain := req.chain
            toAddress := req.toAddress
            currency := req.currency
            amount := req.amount }
        let ledger2 := FreezeBalance st.ledger key req.amount
        let fee : Option Amount :=
          match blockchains req.chain with
          | some chain => chain.estimateFee "" req.toAddress req.amount
          | none => none
        let outcome :=
          if risk.1.needManualReview then (WithdrawalStatus.manualReview, false, true)
          else if 0 < risk.1.riskLevel then (WithdrawalStatus.riskReview, true, false)
          else (WithdrawalStatus.approved, false, false)
        let w : Withdrawal :=
          { id := freshId
            uuid := "uuid-" ++ toString freshId
            userId := req.userId
            walletId := req.walletId
            chain := req.chain
            txHash := ""
            fromAddress := ""
            toAddress := req.toAddress
            currency := req.currency
            contractAddress := req.contractAddress
            amount := req.amount
            fee := fee
            status := outcome.1
            riskLevel := risk.1.riskLevel
            riskReview := outcome.2.1
            manualReview := outcome.2.2
            confirmations := 0
            blockNumber := 0
            memo := req.memo
            errorMsg := ""
            createdDay := today
            completedAt := none }
        .ok ({ st with
            ledger := ledger2
            risk := risk.2
            withdrawals := st.withdrawals ++ [w] }, w)

/-- Repository `Update` (`Save` keyed on the primary id). -/
def UpdateWithdrawal (st : WState) (w : Withdrawal) : WState :=
  { st with withdrawals := st.withdrawals.map (fun r => if r.id == w.id then w else r) }

/-- `processWithdrawal` (one iteration of the Approved-withdrawal
processor): mark Processing, build the transaction from the hot-wallet
address — an empty-string placeholder in the source — sign it as user 0 via
the key manager `Sign` (not `SignWithRequestID`), broadcast, and mark
Broadcast with the tx hash; any failure marks the row Failed with the error
message.  The returned `Option String` is the Go error message. -/
def processWithdrawal (blockchains : String → Option ChainAdapter) (env : KmEnv)
    (km : KmState) (st : WState) (w : Withdrawal) :
    KmState × WState × Option String :=
  match blockchains w.chain with
  | none => (km, st, some "unsupported chain")
  | some chain =>
    let w1 := { w with status := WithdrawalStatus.processing }
    let st1 := UpdateWithdrawal st w1
    let hotWalletAddress := ""
    match chain.buildTransaction hotWalletAddress w1.toAddress w1.amount w1.contractAddress with
    | .error msg =>
      (km, UpdateWithdrawal st1 { w1 with status := WithdrawalStatus.failed, errorMsg := msg },
       some msg)
    | .ok rawTx =>
      let signed := Sign env km 0 w1.chain hotWalletAddress rawTx
      match signed.2 with
      | .error e =>
        (signed.1,
         UpdateWithdrawal st1
           { w1 with status := WithdrawalStatus.failed, errorMsg := e.message },
         some e.message)
      | .ok signature =>
        match chain.broadcastTransaction signature with
        | .error msg =>
          (signed.1,
           UpdateWithdrawal st1 { w1 with status := WithdrawalStatus.failed, errorMsg := msg },
           some msg)
        | .ok txHash =>
          (signed.1,
           UpdateWithdrawal st1
             { w1 with
               txHash := txHash
               fromAddress := hotWalletAddress
               status := WithdrawalStatus.broadcast },
           none)

/-- The per-row body of the withdrawal `CheckConfirmations` loop: skip rows
without a tx hash or whose `GetTransaction` fails or returns nil; otherwise
copy confirmations and block number, then — on chain status Failed — mark
Failed and `UnfreezeBalance`; on `confirmations ≥ required` mark Completed
with `completed_at` and call `DecrementBalance` (which subtracts from
`available`, not from `frozen`); otherwise mark Confirming. -/
def applyWithdrawalConfirmation (chain : ChainAdapter) (now : Nat)
    (l : Ledger) (w : Withdrawal) : Ledger × Withdrawal :=
  if w.txHash == "" then (l, w)
  else
    match chain.getTransaction w.txHash with
    | none => (l, w)
    | some txInfo =>
      let w1 := { w with confirmations := txInfo.confirmations, blockNumber := txInfo.blockNumber }
      let key : BalKey := { userId := w.userId, chain := w.chain, currency := w.currency }
      if txInfo.status == 2 then
        (UnfreezeBalance l key w.amount,
         { w1 with status := WithdrawalStatus.failed, errorMsg := "transaction failed on chain" })
      else if chain.requiredConfirmations ≤ txInfo.confirmations then
        (DecrementBalance l key w.amount,
         { w1 with status := WithdrawalStatus.completed, completedAt := some now })
      else
        (l, { w1 with status := WithdrawalStatus.confirming })

/-- Withdrawal-service `CheckConfirmations`: over the first 100 rows in
{Broadcast, Confirming} for the chain, apply `applyWithdrawalConfirmation`
and save each updated row. -/
def CheckConfirmations (blockchains : String → Option ChainAdapter) (st : WState)
    (chainName : String) (now : Nat) : Except String WState :=
  match blockchains chainName with
  | none => .error "unsupported chain"
  | some chain =>
    let pendingRows := (st.withdrawals.filter (fun w =>
      (w.status == WithdrawalStatus.broadcast || w.status == WithdrawalStatus.confirming) &&
      w.chain == chainName)).take 100
    let folded := pendingRows.foldl
      (fun (acc : Ledger × List Withdrawal) w =>
        let r := applyWithdrawalConfirmation chain now acc.1 w
        (r.1, acc.2 ++ [r.2]))
      (st.ledger, [])
    .ok { st with
      ledger := folded.1
      withdrawals := st.withdrawals.map (fun r =>
        match folded.2.find? (fun u => u.id == r.id) with
        | some u => u
        | none => r) }

/-! ## Deposit pipeline (internal/deposit) -/

/-- `DepositStatus`: Pending=0, Confirming=1, Confirmed=2, Credited=3,
Failed=4. -/
inductive DepositStatus
| pending
| confirming
| confirmed
| credited
| failed
deriving DecidableEq

/-- A `deposits` row. -/
structure Deposit where
  id : Nat
  uuid : String
  userId : Nat
  walletId : Nat
  chain : String
  txHash : String
  fromAddress : String
  toAddress : String
  currency : String
  amount : Amount
  status : DepositStatus
  confirmations : Int
  blockNumber : Nat
  blockHash : String
  credited : Bool
  creditedAt : Option Nat
deriving DecidableEq

/-- A `deposit_addresses` row. -/
structure DepositAddress where
  userId : Nat
  chain : String
  address : String
  status : Nat
deriving DecidableEq

/-- A `wallets` row (only the columns `ProcessDeposit` reads). -/
structure WalletRow where
  id : Nat
  userId : Nat
deriving DecidableEq

/-- Deposit-service database state.  `scanProgress` is the `scan_progress`
table (chain → last scanned block). -/
structure DState where
  deposits : List Deposit
  nextDepositId : Nat
  depositAddresses : List DepositAddress
  wallets : List WalletRow
  scanProgress : List (String × Nat)
  ledger : Ledger

/-- Repository `GetDepositByTxHash`: lookup by `tx_hash` **only** — the
query has no chain condition, and the column carries a global unique
index. -/
def GetDepositByTxHash (ds : List Deposit) (txHash : String) : Option Deposit :=
  ds.find? (fun d => d.txHash == txHash)

/-- Repository `GetDepositAddress`: lookup by (chain, address). -/
def GetDepositAddress (addrs : List DepositAddress) (chain address : String) :
    Option DepositAddress :=
  addrs.find? (fun a => a.chain == chain && a.address == address)

/-- Wallet repository `ListWalletsByUserID`. -/
def ListWalletsByUserID (ws : List WalletRow) (userId : Nat) : List WalletRow :=
  ws.filter (fun w => w.userId == userId)

/-- Repository `ListAllDepositAddresses` for one chain. -/
def ListAllDepositAddresses (addrs : List DepositAddress) (chain : String) :
    List DepositAddress :=
  addrs.filter (fun a => a.chain == chain)

/-- Repository `GetLastScannedBlock`: 0 when the chain has no row. -/
def GetLastScannedBlock (sp : List (String × Nat)) (chain : String) : Nat :=
  match sp.find? (fun p => p.1 == chain) with
  | some p => p.2
  | none => 0

/-- Repository `SetLastScannedBlock`: update the chain's row, creating it
when absent. -/
def SetLastScannedBlock (sp : List (String × Nat)) (chain : String) (blk : Nat) :
    List (String × Nat) :=
  match sp.find? (fun p => p.1 == chain) with
  | some _ => sp.map (fun p => if p.1 == chain then (p.1, blk) else p)
  | none => sp ++ [(chain, blk)]

/-- Deposit-service errors reachable in the model. -/
inductive DepositErr
| depositNotFound
| addressNotFound
deriving DecidableEq

/-- The `Deposit` record literal `ProcessDeposit` builds for an owned
destination: status Pending, the owner's first wallet id (0 when none), and
`uuid.New()` modelled as a string derived from the fresh autoincrement id. -/
def newDepositRow (st : DState) (chain txHash fromAddress toAddress currency : String)
    (amount : Amount) (blockNumber : Nat) (depositAddr : DepositAddress) : Deposit :=
  { id := st.nextDepositId
    uuid := "uuid-" ++ toString st.nextDepositId
    userId := depositAddr.userId
    walletId :=
      match ListWalletsByUserID st.wallets depositAddr.userId with
      | [] => 0
      | wlt :: _ => wlt.id
    chain := chain
    txHash := txHash
    fromAddress := fromAddress
    toAddress := toAddress
    currency := currency
    amount := amount
    status := .pending
    confirmations := 0
    blockNumber := blockNumber
    blockHash := ""
    credited := false
    creditedAt := none }

/-- `ProcessDeposit`: return unchanged when a deposit with this tx hash
exists (the lookup ignores the chain) or when the destination address is
not a registered deposit address for the chain; otherwise insert the one
Pending row of `newDepositRow`. -/
def ProcessDeposit (st : DState) (chain txHash fromAddress toAddress currency : String)
    (amount : Amount) (blockNumber : Nat) : Except String DState :=
  match GetDepositByTxHash st.deposits txHash with
  | some _ => .ok st
  | none =>
    match GetDepositAddress st.depositAddresses chain toAddress with
    | none => .ok st
    | some depositAddr =>
      let deposit : Deposit :=
        newDepositRow st chain txHash fromAddress toAddress currency amount blockNumber
          depositAddr
      .ok { st with
        deposits := st.deposits ++ [deposit]
        nextDepositId := st.nextDepositId + 1 }

/-- `CreditDeposit`: load the row by id; a credited row is a silent no-op;
otherwise `IncrementBalance` by the deposit amount, then the repository
`CreditDeposit` update sets `credited = true`, `credited_at = NOW()` and
`status = Credited` on the row. -/
def CreditDeposit (st : DState) (depositId : Nat) (now : Nat) : Except DepositErr DState :=
  match st.deposits.find? (fun d => d.id == depositId) with
  | none => .error .depositNotFound
  | some deposit =>
    if deposit.credited then .ok st
    else
      let key : BalKey :=
        { userId := deposit.userId, chain := deposit.chain, currency := deposit.currency }
      .ok { st with
        ledger := IncrementBalance st.ledger key deposit.amount
        deposits := st.deposits.map (fun d =>
          if d.id == depositId then
            { d with credited := true, creditedAt := some now, status := .credited }
          else d) }

/-- One application of the credit driver to a deposit id: the state
`CreditDeposit` leaves behind (errors leave the state unchanged, as in Go
where the caller only logs them). -/
def creditDepositRun (depositId now : Nat) (st : DState) : DState :=
  match CreditDeposit st depositId now with
  | .ok st2 => st2
  | .error _ => st

/-- The keccak hash of `Transfer(address,address,uint256)`. -/
def transferTopic : String :=
  "0xddf252ad1be2c89b69c2b068fc378daa952ba7f163c4a11628f55a4df523b3ef"

/-- The native-coin branch of the scanner loop body: fetch the transaction,
skip empty hashes, fetch errors, nil results, empty `To` or empty `Amount`;
when the lowercased destination is a registered address, `ProcessDeposit`
with currency "ETH" (errors ignored). -/
def scanNativeTx (chain : ChainAdapter) (chainName : String) (addrSet : List String)
    (st : DState) (txHash : String) : DState :=
  if txHash == "" then st
  else
    match chain.getTransaction txHash with
    | none => st
    | some txInfo =>
      if txInfo.toAddress == "" then st
      else
        match txInfo.amount with
        | none => st
        | some amt =>
          if addrSet.contains txInfo.toAddress.toLower then
            match ProcessDeposit st chainName txInfo.txHash txInfo.fromAddress
                txInfo.toAddress "ETH" amt txInfo.blockNumber with
            | .ok st2 => st2
            | .error _ => st
          else st

/-- The ERC20-log branch of the scanner loop body: keep logs whose first
topic is the Transfer topic and that carry at least three topics; decode
from/to via the go-ethereum address normalization `hexToAddress`; when the
lowercased destination is registered, `ProcessDeposit` with the emitting
contract as currency and the scanned height as block number. -/
def scanLogEntry (hexToAddress : String → String) (chainName : String)
    (addrSet : List String) (blk : Nat) (st : DState) (entry : EthLog) : DState :=
  match entry.topics with
  | t0 :: _ :: t2 :: _ =>
    if t0 != transferTopic then st
    else
      let toAddress := hexToAddress t2
      if addrSet.contains toAddress.toLower then
        match entry.topics with
        | _ :: t1 :: _ =>
          match ProcessDeposit st chainName entry.txHash (hexToAddress t1) toAddress
              entry.address entry.dataAmount blk with
          | .ok st2 => st2
          | .error _ => st
        | _ => st
      else st
  | _ => st

/-- One height of the scanner loop.  When the adapter exposes `GetBlock`
and the fetch fails, the Go `continue` skips the whole iteration —
*including* the `SetLastScannedBlock` write at its end — and the loop moves
on to the next height.  On every other path the iteration ends by
persisting `ScanProgress[chain] = blk`. -/
def scanBlock (chain : ChainAdapter) (hexToAddress : String → String) (chainName : String)
    (addrSet : List String) (st : DState) (blk : Nat) : DState :=
  let afterBlock : Option DState :=
    if chain.hasBlock then
      match chain.getBlock blk with
      | none => none
      | some block => some (block.transactions.foldl (scanNativeTx chain chainName addrSet) st)
    else some st
  match afterBlock with
  | none => st
  | some st1 =>
    let st2 :=
      if chain.hasLogs then
        match chain.getLogs blk blk with
        | .error _ => st1
        | .ok logs => logs.foldl (scanLogEntry hexToAddress chainName addrSet blk) st1
      else st1
    { st2 with scanProgress := SetLastScannedBlock st2.scanProgress chainName blk }

/-- `ScanDeposits`: resolve the adapter, clamp the window to
`last + 200`, build the lowercase registered-address set for the chain, and
run `scanBlock` over the heights `last+1 .. latest`. -/
def ScanDeposits (blockchains : String → Option ChainAdapter) (hexToAddress : String → String)
    (st : DState) (chainName : String) : Except String DState :=
  match blockchains chainName with
  | none => .error "unsupported chain"
  | some chain =>
    let lastScanned := GetLastScannedBlock st.scanProgress chainName
    match chain.getBlockNumber with
    | none => .error "rpc error"
    | some latest0 =>
      let latest := if lastScanned + 200 < latest0 then lastScanned + 200 else latest0
      let addrSet := (ListAllDepositAddresses st.depositAddresses chainName).map
        (fun a => a.address.toLower)
      let blocks := (List.range (latest - lastScanned)).map (fun i => lastScanned + 1 + i)
      .ok (blocks.foldl (scanBlock chain hexToAddress chainName addrSet) st)

/-! ## Concrete fixtures shared by the evaluation theorems -/

/-- An empty risk-control database. -/
def emptyRisk : RiskState := { blacklist := [], rules := [], riskLogs := [] }

/-- A risk database whose address blacklist holds `0xC` on ethereum. -/
def blacklistRisk : RiskState :=
  { blacklist := [{ btype := "address"
                    value := "0xC"
                    chain := "ethereum"
                    status := 1
                    expiresAt := none }]
    rules := []
    riskLogs := [] }

/-- Withdrawal-service state for the C1 run: 100 units available, the risk
blacklist above, no limits, no prior withdrawals. -/
def c1State : WState :=
  { ledger := singleRowLedger ethKey { available := 100, frozen := 0, pending := 0 }
    withdrawals := []
    limits := []
    risk := blacklistRisk }

/-- The C1 request: user 1 withdraws 10 ETH to the blacklisted `0xC`. -/
def c1Req : CreateWithdrawalRequest :=
  { userId := 1
    walletId := 1
    chain := "ethereum"
    toAddress := "0xC"
    currency := "ETH"
    amount := 10
    contractAddress := ""
    memo := "" }

/-- Claim C1 (code bug, failing-input evaluation): on the blacklisted
destination, `CheckWithdrawalRisk` reports `blocked = true`, yet
`CreateWithdrawal` — which inspects only the nil Go error — succeeds: the
Withdrawal row is inserted with status Approved (risk level 0, no review
flag), the balance is frozen by 10, and a `result = "block"` risk log is the
only trace of the block. -/
theorem C1_risk_block_not_enforced :
    (CheckWithdrawalRisk blacklistRisk 0
      { userId := 1, chain := "ethereum", toAddress := "0xC", currency := "ETH",
        amount := 10 }).1.blocked = true ∧
    (CreateWithdrawal (fun _ => none) c1State c1Req 0 0 1).toOption.map
        (fun p => (p.2.status, p.1.ledger ethKey, p.1.withdrawals.length, p.1.risk.riskLogs))
      = some (WithdrawalStatus.approved,
              some { available := 90, frozen := 10, pending := 0 },
              1,
              [{ userId := 1, action := "withdrawal", riskLevel := 0, result := "block" }]) := by
  constructor <;> rfl

/-- The adapter for the C3 run: 12 required confirmations; the broadcast
transaction `0xT` reports 12 confirmations and on-chain success. -/
def c3Adapter : ChainAdapter :=
  { requiredConfirmations := 12
    estimateFee := fun _ _ _ => none
    getTransaction := fun h =>
      if h == "0xT" then
        some { txHash := "0xT"
               fromAddress := "0xA"
               toAddress := "0xB"
               amount := some 10
               blockNumber := 100
               blockHash := "bh"
               confirmations := 12
               status := 1 }
      else none
    getBlockNumber := none
    buildTransaction := fun _ _ _ _ => .error "unused"
    broadcastTransaction := fun _ => .error "unused"
    hasBlock := false
    getBlock := fun _ => none
    hasLogs := false
    getLogs := fun _ _ => .error "unused" }

/-- The broadcast withdrawal of the C3 run: 10 units, frozen earlier. -/
def c3Withdrawal : Withdrawal :=
  { id := 1
    uuid := "u1"
    userId := 1
    walletId := 1
    chain := "ethereum"
    txHash := "0xT"
    fromAddress := ""
    toAddress := "0xB"
    currency := "ETH"
    contractAddress := ""
    amount := 10
    fee := none
    status := .broadcast
    riskLevel := 0
    riskReview := false
    manualReview := false
    confirmations := 0
    blockNumber := 0
    memo := ""
    errorMsg := ""
    createdDay := 0
    completedAt := none }

/-- Withdrawal-service state for the C3 run: the freeze of the 10-unit
withdrawal already happened (`available = 50, frozen = 10`). -/
def c3State : WState :=
  { ledger := singleRowLedger ethKey { available := 50, frozen := 10, pending := 0 }
    withdrawals := [c3Withdrawal]
    limits := []
    risk := emptyRisk }

/-- Claim C3 (code bug, failing-input evaluation): with the required 12
confirmations reached, `CheckConfirmations` marks the withdrawal Completed
and sets `completed_at` — but the finalization debit is `DecrementBalance`,
which subtracts from `available` (guarded on `available`), so the ledger
goes from `(available 50, frozen 10)` to `(available 40, frozen 10)`: the
frozen hold is never released and `available` is reduced at completion. -/
theorem C3_completion_debits_available_not_frozen :
    (CheckConfirmations (fun c => if c == "ethereum" then some c3Adapter else none)
        c3State "ethereum" 5).toOption.map
        (fun s => (s.withdrawals.map (fun w => (w.status, w.completedAt, w.confirmations)),
                   s.ledger ethKey))
      = some ([(WithdrawalStatus.completed, some 5, 12)],
              some { available := 40, frozen := 10, pending := 0 }) := by
  rfl

/-- The adapter for the C5 run: the chain tip is 102; fetching block 101
fails, fetching block 102 succeeds (and is empty). -/
def c5Adapter : ChainAdapter :=
  { requiredConfirmations := 12
    estimateFee := fun _ _ _ => none
    getTransaction := fun _ => none
    getBlockNumber := some 102
    buildTransaction := fun _ _ _ _ => .error "unused"
    broadcastTransaction := fun _ => .error "unused"
    hasBlock := true
    getBlock := fun b => if b == 102 then some { transactions := [] } else none
    hasLogs := false
    getLogs := fun _ _ => .error "unused" }

/-- Deposit-service state for the C5 run: ethereum scanned up to block
100. -/
def c5State : DState :=
  { deposits := []
    nextDepositId := 1
    depositAddresses := []
    wallets := []
    scanProgress := [("ethereum", 100)]
    ledger := fun _ => none }

/-- Claim C5 (code bug, failing-input evaluation): the `GetBlock` failure at
height 101 skips that height's progress write, but the loop continues, and
the successful iteration at height 102 persists `ScanProgress[ethereum] =
102` — so the failed block 101 is never re-attempted, while the claim
requires progress to stay at 100. -/
theorem C5_failed_block_skipped_by_progress :
    (ScanDeposits (fun c => if c == "ethereum" then some c5Adapter else none)
        (fun s => s) c5State "ethereum").toOption.map
        (fun s => (GetLastScannedBlock s.scanProgress "ethereum", s.deposits.length))
      = some (102, 0) := by
  rfl

/-! ## List helpers for keyed updates -/

/-- An id-keyed bulk update rewrites the first row an id lookup finds,
provided the update preserves ids. -/
theorem find_map_update_deposit (ds : List Deposit) (i : Nat)
    (g : Deposit → Deposit) (hg : ∀ d2, (g d2).id = d2.id) (d : Deposit)
    (h : ds.find? (fun d2 => d2.id == i) = some d) :
    (ds.map (fun d2 => if d2.id == i then g d2 else d2)).find? (fun d2 => d2.id == i)
      = some (g d) := by
  induction ds with
  | nil => simp at h
  | cons a t ih =>
    by_cases hai : (a.id == i) = true
    · have had : a = d := by
        have := List.find?_cons_of_pos (p := fun d2 => d2.id == i) t hai
        rw [this] at h
        exact Option.some.inj h
      subst had
      have hga : ((g a).id == i) = true := by rw [hg a]; exact hai
      rw [List.map_cons, if_pos hai]
      exact List.find?_cons_of_pos _ hga
    · have h2 : t.find? (fun d2 => d2.id == i) = some d := by
        have := List.find?_cons_of_neg (p := fun d2 => d2.id == i) t hai
        rw [this] at h
        exact h
      have h3 := List.find?_cons_of_neg (p := fun d2 => d2.id == i)
        (t.map (fun d2 => if d2.id == i then g d2 else d2)) hai
      rw [List.map_cons, if_neg hai, h3]
      exact ih h2

/-- A lookup that misses the first list segment continues in the second. -/
theorem find_append_of_none {α : Type} (p : α → Bool) (l1 l2 : List α)
    (h : l1.find? p = none) : (l1 ++ l2).find? p = l2.find? p := by
  induction l1 with
  | nil => rfl
  | cons a t ih =>
    by_cases ha : p a = true
    · rw [List.find?_cons_of_pos t ha] at h
      exact absurd h (by simp)
    · have h2 : t.find? p = none := by
        rw [List.find?_cons_of_neg t ha] at h
        exact h
      rw [List.cons_append, List.find?_cons_of_neg _ ha]
      exact ih h2

/-- An id-keyed bulk update is the identity on a list no row of which
carries the id. -/
theorem map_update_sigreq_of_fresh (rs : List SignatureRequest) (i : Nat)
    (x : SignatureRequest) (h : ∀ r ∈ rs, r.id ≠ i) :
    rs.map (fun r => if r.id == i then x else r) = rs := by
  induction rs with
  | nil => rfl
  | cons a t ih =>
    have ha : ¬ ((a.id == i) = true) := by
      simp only [beq_iff_eq]
      exact h a (List.mem_cons_self a t)
    have ht : t.map (fun r => if r.id == i then x else r) = t :=
      ih (fun r hr => h r (List.mem_cons_of_mem a hr))
    rw [List.map_cons, if_neg ha, ht]

/-! ## Claim C4: exactly-once deposit credit -/

/-- A Confirmed, uncredited 7-unit ERC20 deposit whose `currency` is the
token contract address — the scanner records token deposits this way, while
`wallet/service.go` creates Balance rows only for a chain's default
currency, so no `(user 1, ethereum, 0xTOKEN)` Balance row ever exists. -/
def c4TokenDeposit : Deposit :=
  { id := 1
    uuid := "u1"
    userId := 1
    walletId := 1
    chain := "ethereum"
    txHash := "0xdeptok"
    fromAddress := "0xF"
    toAddress := "0xA"
    currency := "0xTOKEN"
    amount := 7
    status := .confirmed
    confirmations := 13
    blockNumber := 90
    blockHash := ""
    credited := false
    creditedAt := none }

/-- State for the C4 counterexample: the token deposit above, and a ledger
holding only the user's default-currency `(1, ethereum, ETH)` row. -/
def c4TokenState : DState :=
  { deposits := [c4TokenDeposit]
    nextDepositId := 2
    depositAddresses := [{ userId := 1, chain := "ethereum", address := "0xA", status := 1 }]
    wallets := [{ id := 1, userId := 1 }]
    scanProgress := []
    ledger := singleRowLedger ethKey { available := 3, frozen := 0, pending := 0 } }

/-- Claim C4 counterexample: crediting the Confirmed, uncredited token
deposit marks it `credited = true, status = Credited`, yet **zero** balance
increments are applied: the `(user, chain, currency)` row for the token
currency does not exist, so the GORM `IncrementBalance` UPDATE matches no
rows (nil error) — the token key is still absent afterwards and the
default-currency row is untouched — against the claim's "increments the
user's available balance by the deposit amount ... exactly one balance
increment". -/
theorem C4_credit_without_balance_row :
    (CreditDeposit c4TokenState 1 5).toOption.map
        (fun s => (s.deposits.map (fun d => (d.credited, d.status, d.creditedAt)),
          s.ledger { userId := 1, chain := "ethereum", currency := "0xTOKEN" },
          s.ledger ethKey))
      = some ([(true, DepositStatus.credited, some 5)],
              none,
              some { available := 3, frozen := 0, pending := 0 }) := by
  rfl

/-- Claim C4 as amended: for a deposit row with `credited = false`,
`CreditDeposit` marks the row `credited = true, status = Credited` and
applies the balance increment **at most once** — exactly once, adding the
deposit amount to `available`, when the owner's `(user, chain, currency)`
Balance row exists; when no such row exists the increment silently matches
no rows and the ledger is unchanged at that key, with the deposit still
marked credited.  Re-applying the credit operation to the resulting state
is a no-op, so any `N ≥ 1` applications never increment more than once. -/
theorem C4_amended_credit_at_most_once (st : DState) (depositId now now2 : Nat)
    (d : Deposit)
    (hd : st.deposits.find? (fun d2 => d2.id == depositId) = some d)
    (hnc : d.credited = false) :
    ∃ st2, CreditDeposit st depositId now = .ok st2 ∧
      (∀ b, st.ledger { userId := d.userId, chain := d.chain, currency := d.currency } = some b →
        st2.ledger { userId := d.userId, chain := d.chain, currency := d.currency }
          = some { b with available := b.available + d.amount }) ∧
      (st.ledger { userId := d.userId, chain := d.chain, currency := d.currency } = none →
        st2.ledger { userId := d.userId, chain := d.chain, currency := d.currency } = none) ∧
      st2.deposits.find? (fun d2 => d2.id == depositId)
        = some { d with credited := true, creditedAt := some now, status := .credited } ∧
      CreditDeposit st2 depositId now2 = .ok st2 ∧
      ∀ n : Nat, (creditDepositRun depositId now2)^[n] st2 = st2 := by
  have hfind := find_map_update_deposit st.deposits depositId
    (fun d2 => { d2 with credited := true, creditedAt := some now, status := .credited })
    (fun _ => rfl) d hd
  refine ⟨{ st with
      ledger := IncrementBalance st.ledger
        { userId := d.userId, chain := d.chain, currency := d.currency } d.amount
      deposits := st.deposits.map (fun d2 =>
        if d2.id == depositId then
          { d2 with credited := true, creditedAt := some now, status := DepositStatus.credited }
        else d2) }, ?_, ?_, ?_, ?_, ?_, ?_⟩
  · simp only [CreditDeposit, hd, hnc]
    rfl
  · intro b hb
    simp only [IncrementBalance, updateWhere, hb]
    simp
  · intro hb
    simp only [IncrementBalance, updateWhere, hb]
  · exact hfind
  · simp only [CreditDeposit, hfind]
    rfl
  · intro n
    refine Function.iterate_fixed ?_ n
    simp only [creditDepositRun, CreditDeposit, hfind]
    rfl

/-- A Confirmed, uncredited 7-unit ethereum deposit in the default currency
for the C4 witness. -/
def c4Deposit : Deposit :=
  { id := 1
    uuid := "u1"
    userId := 1
    walletId := 1
    chain := "ethereum"
    txHash := "0xdep"
    fromAddress := "0xF"
    toAddress := "0xA"
    currency := "ETH"
    amount := 7
    status := .confirmed
    confirmations := 13
    blockNumber := 90
    blockHash := ""
    credited := false
    creditedAt := none }

/-- Deposit-service state for the C4 witness. -/
def c4State : DState :=
  { deposits := [c4Deposit]
    nextDepositId := 2
    depositAddresses := [{ userId := 1, chain := "ethereum", address := "0xA", status := 1 }]
    wallets := [{ id := 1, userId := 1 }]
    scanProgress := []
    ledger := singleRowLedger ethKey { available := 3, frozen := 0, pending := 0 } }

/-- Witness for the amended C4 at the concrete confirmed deposit (whose
Balance row exists, so the increment branch is exercised). -/
theorem C4_amended_credit_at_most_once_witness :
    ∃ st2, CreditDeposit c4State 1 5 = .ok st2 ∧
      (∀ b, c4State.ledger ethKey = some b →
        st2.ledger ethKey = some { b with available := b.available + c4Deposit.amount }) ∧
      (c4State.ledger ethKey = none → st2.ledger ethKey = none) ∧
      st2.deposits.find? (fun d2 => d2.id == 1)
        = some { c4Deposit with credited := true, creditedAt := some 5, status := .credited } ∧
      CreditDeposit st2 1 9 = .ok st2 ∧
      ∀ n : Nat, (creditDepositRun 1 9)^[n] st2 = st2 :=
  C4_amended_credit_at_most_once c4State 1 5 9 c4Deposit rfl rfl

/-! ## Claim C6: ProcessDeposit idempotency key -/

/-- An ethereum deposit with tx hash `0xabc`, already recorded. -/
def c6Deposit : Deposit :=
  { id := 1
    uuid := "u1"
    userId := 1
    walletId := 0
    chain := "ethereum"
    txHash := "0xabc"
    fromAddress := "f"
    toAddress := "t"
    currency := "ETH"
    amount := 5
    status := .pending
    confirmations := 0
    blockNumber := 100
    blockHash := ""
    credited := false
    creditedAt := none }

/-- State for the C6 counterexample: the ethereum deposit above exists, and
`addr1` is a registered *bitcoin* deposit address of user 2. -/
def c6State : DState :=
  { deposits := [c6Deposit]
    nextDepositId := 2
    depositAddresses := [{ userId := 2, chain := "bitcoin", address := "addr1", status := 1 }]
    wallets := []
    scanProgress := []
    ledger := fun _ => none }

/-- Claim C6 counterexample: the same tx hash `0xabc` arriving on *bitcoin*,
addressed to the registered bitcoin deposit address, is **not** inserted:
`GetDepositByTxHash` matches on `tx_hash` alone (no chain condition, and the
column carries a global unique index), so the existing ethereum row makes
the call a no-op, against the claim that a tx hash on a different chain is a
distinct deposit that is still inserted. -/
theorem C6_cross_chain_txhash_not_inserted :
    (ProcessDeposit c6State "bitcoin" "0xabc" "f2" "addr1" "BTC" 7 200).toOption.map
        (fun s => s.deposits) = some [c6Deposit] := by
  rfl

/-- Claim C6 as amended: `ProcessDeposit` is idempotent keyed on the
**tx hash alone**: a call whose tx hash matches any existing deposit — on
any chain — returns without inserting; otherwise a registered destination
address gets exactly one Pending row (and the immediate replay of the same
call is a no-op), and an unknown destination inserts nothing and returns no
error. -/
theorem C6_amended_txhash_idempotency (st : DState)
    (chain txHash fromAddress toAddress currency : String) (amount : Amount)
    (blockNumber : Nat) :
    (GetDepositByTxHash st.deposits txHash ≠ none →
      ProcessDeposit st chain txHash fromAddress toAddress currency amount blockNumber
        = .ok st) ∧
    (∀ addr, GetDepositByTxHash st.deposits txHash = none →
      GetDepositAddress st.depositAddresses chain toAddress = some addr →
      ∃ row st2,
        ProcessDeposit st chain txHash fromAddress toAddress currency amount blockNumber
          = .ok st2 ∧
        st2.deposits = st.deposits ++ [row] ∧
        row.status = .pending ∧ row.chain = chain ∧ row.txHash = txHash ∧
        row.userId = addr.userId ∧ row.toAddress = toAddress ∧ row.amount = amount ∧
        row.credited = false ∧
        ProcessDeposit st2 chain txHash fromAddress toAddress currency amount blockNumber
          = .ok st2) ∧
    (GetDepositByTxHash st.deposits txHash = none →
      GetDepositAddress st.depositAddresses chain toAddress = none →
      ProcessDeposit st chain txHash fromAddress toAddress currency amount blockNumber
        = .ok st) := by
  refine ⟨?_, ?_, ?_⟩
  · intro h
    match hx : GetDepositByTxHash st.deposits txHash with
    | none => exact absurd hx h
    | some d => simp only [ProcessDeposit, hx]
  · intro addr h1 h2
    refine ⟨newDepositRow st chain txHash fromAddress toAddress currency amount blockNumber
      addr,
      { st with
        deposits := st.deposits ++
          [newDepositRow st chain txHash fromAddress toAddress currency amount blockNumber addr]
        nextDepositId := st.nextDepositId + 1 },
      ?_, ?_, rfl, rfl, rfl, rfl, rfl, rfl, rfl, ?_⟩
    · simp only [ProcessDeposit, h1, h2]
    · rfl
    · have h1l : st.deposits.find? (fun d => d.txHash == txHash) = none := h1
      have hsecond : GetDepositByTxHash
          (st.deposits ++ [newDepositRow st chain txHash fromAddress toAddress currency
            amount blockNumber addr]) txHash ≠ none := by
        unfold GetDepositByTxHash
        rw [find_append_of_none _ _ _ h1l]
        simp [List.find?_cons, newDepositRow]
      match hx2 : GetDepositByTxHash
          (st.deposits ++ [newDepositRow st chain txHash fromAddress toAddress currency
            amount blockNumber addr]) txHash with
      | none => exact absurd hx2 hsecond
      | some d => simp only [ProcessDeposit, hx2]
  · intro h1 h2
    simp only [ProcessDeposit, h1, h2]

/-- Fresh-deposit state for the C6 witness: no deposits, `addrE` registered
on ethereum for user 3. -/
def c6FreshState : DState :=
  { deposits := []
    nextDepositId := 1
    depositAddresses := [{ userId := 3, chain := "ethereum", address := "addrE", status := 1 }]
    wallets := []
    scanProgress := []
    ledger := fun _ => none }

/-- Witness for the amended C6 at a fresh tx hash on a registered address. -/
theorem C6_amended_txhash_idempotency_witness :
    ∃ row st2,
      ProcessDeposit c6FreshState "ethereum" "0xNEW" "f" "addrE" "ETH" 3 50 = .ok st2 ∧
      st2.deposits = c6FreshState.deposits ++ [row] ∧
      row.status = .pending ∧ row.chain = "ethereum" ∧ row.txHash = "0xNEW" ∧
      row.userId = 3 ∧
      row.toAddress = "addrE" ∧ row.amount = 3 ∧
      row.credited = false ∧
      ProcessDeposit st2 "ethereum" "0xNEW" "f" "addrE" "ETH" 3 50 = .ok st2 :=
  (C6_amended_txhash_idempotency c6FreshState "ethereum" "0xNEW" "f" "addrE" "ETH" 3 50).2.1
    { userId := 3, chain := "ethereum", address := "addrE", status := 1 } rfl rfl

/-! ## Claim C7: withdrawal limit enforcement -/

/-- Claim C7: with a sufficient available balance and an effective limit
(user-specific when present, else global) whose min, max and daily fields
are all set, `CreateWithdrawal` rejects `amount < min` with BelowMinAmount,
`amount > max` with ExceedSingleLimit, and `dailyTotal + amount > daily`
with ExceedDailyLimit — where `dailyTotal` is `GetUserDailyWithdrawal`, the
same-day sum excluding Rejected/Cancelled/Failed rows — and both boundaries
are inclusive: `amount = max` passes the limit gate, and a daily total
landing exactly on the daily limit passes it, after which the call
succeeds. -/
theorem C7_limit_enforcement (blockchains : String → Option ChainAdapter) (st : WState)
    (req : CreateWithdrawalRequest) (now today freshId : Nat)
    (l : WithdrawalLimit) (minA maxA daily : Amount) (b : Balance)
    (hb : GetBalanceRow st.ledger
      { userId := req.userId, chain := req.chain, currency := req.currency } = some b)
    (hav : req.amount ≤ b.available)
    (hl : effectiveLimit st.limits req.userId req.chain req.currency = some l)
    (hmin : l.minAmount = some minA)
    (hmax : l.maxAmount = some maxA)
    (hdl : l.dailyLimit = some daily) :
    (req.amount < minA →
      CreateWithdrawal blockchains st req now today freshId = .error .belowMinAmount) ∧
    (minA ≤ req.amount → maxA < req.amount →
      CreateWithdrawal blockchains st req now today freshId = .error .exceedSingleLimit) ∧
    (minA ≤ req.amount → req.amount ≤ maxA →
      daily < GetUserDailyWithdrawal st.withdrawals req.userId req.chain req.currency today
        + req.amount →
      CreateWithdrawal blockchains st req now today freshId = .error .exceedDailyLimit) ∧
    (minA ≤ req.amount → req.amount ≤ maxA →
      GetUserDailyWithdrawal st.withdrawals req.userId req.chain req.currency today
        + req.amount ≤ daily →
      checkLimits st.withdrawals st.limits req.userId req.chain req.currency req.amount today
        = none ∧
      ∃ st2 w, CreateWithdrawal blockchains st req now today freshId = .ok (st2, w)) := by
  have hnav : ¬ (b.available < req.amount) := not_lt.mpr hav
  refine ⟨?_, ?_, ?_, ?_⟩
  · intro h1
    have hc : checkLimits st.withdrawals st.limits req.userId req.chain req.currency
        req.amount today = some .belowMinAmount := by
      simp only [checkLimits, hl, hmin]
      rw [if_pos (by simpa using h1)]
    simp only [CreateWithdrawal, hb, hc]
    rw [if_neg hnav]
  · intro h1 h2
    have hc : checkLimits st.withdrawals st.limits req.userId req.chain req.currency
        req.amount today = some .exceedSingleLimit := by
      simp only [checkLimits, hl, hmin, hmax]
      rw [if_neg (by simpa using not_lt.mpr h1), if_pos (by simpa using h2)]
    simp only [CreateWithdrawal, hb, hc]
    rw [if_neg hnav]
  · intro h1 h2 h3
    have hc : checkLimits st.withdrawals st.limits req.userId req.chain req.currency
        req.amount today = some .exceedDailyLimit := by
      simp only [checkLimits, hl, hmin, hmax, hdl]
      rw [if_neg (by simpa using not_lt.mpr h1), if_neg (by simpa using not_lt.mpr h2),
        if_pos (by simpa using h3)]
    simp only [CreateWithdrawal, hb, hc]
    rw [if_neg hnav]
  · intro h1 h2 h3
    have hc : checkLimits st.withdrawals st.limits req.userId req.chain req.currency
        req.amount today = none := by
      simp only [checkLimits, hl, hmin, hmax, hdl]
      rw [if_neg (by simpa using not_lt.mpr h1), if_neg (by simpa using not_lt.mpr h2),
        if_neg (by simpa using not_lt.mpr h3)]
    refine ⟨hc, ?_⟩
    simp only [CreateWithdrawal, hb, hc]
    rw [if_neg hnav]
    exact ⟨_, _, rfl⟩

/-- The global (ethereum, ETH) limit of the C7 witness: min 1, max 50,
daily 60. -/
def c7Limit : WithdrawalLimit :=
  { userId := 0
    chain := "ethereum"
    currency := "ETH"
    minAmount := some 1
    maxAmount := some 50
    dailyLimit := some 60 }

/-- A prior same-day approved withdrawal of 20 for the C7 witness. -/
def c7Prior : Withdrawal :=
  { id := 1
    uuid := "u1"
    userId := 1
    walletId := 1
    chain := "ethereum"
    txHash := ""
    fromAddress := ""
    toAddress := "0xB"
    currency := "ETH"
    contractAddress := ""
    amount := 20
    fee := none
    status := .approved
    riskLevel := 0
    riskReview := false
    manualReview := false
    confirmations := 0
    blockNumber := 0
    memo := ""
    errorMsg := ""
    createdDay := 7
    completedAt := none }

/-- Withdrawal-service state for the C7 witness. -/
def c7State : WState :=
  { ledger := singleRowLedger ethKey { available := 100, frozen := 0, pending := 0 }
    withdrawals := [c7Prior]
    limits := [c7Limit]
    risk := emptyRisk }

/-- The C7 witness request: withdraw 40, so the daily total lands exactly on
the 60 daily limit. -/
def c7Req : CreateWithdrawalRequest :=
  { userId := 1
    walletId := 1
    chain := "ethereum"
    toAddress := "0xB"
    currency := "ETH"
    amount := 40
    contractAddress := ""
    memo := "" }

/-- Witness for C7: at the concrete state the boundary case
`dailyTotal + amount = daily_limit` passes the limit gate and the call
succeeds. -/
theorem C7_limit_enforcement_witness :
    checkLimits c7State.withdrawals c7State.limits c7Req.userId c7Req.chain c7Req.currency
      c7Req.amount 7 = none ∧
    ∃ st2 w, CreateWithdrawal (fun _ => none) c7State c7Req 0 7 2 = .ok (st2, w) :=
  (C7_limit_enforcement (fun _ => none) c7State c7Req 0 7 2 c7Limit 1 50 60
      { available := 100, frozen := 0, pending := 0 }
      rfl (by decide) rfl rfl rfl rfl).2.2.2
    (by decide) (by decide) (by decide)

/-! ## Claim C8: GenerateAddress and the master mnemonic -/

/-- A concrete crypto environment: string-tagging stand-ins for the external
libraries; `decrypt` inverts `encrypt` on the two ciphertexts the concrete
runs produce. -/
def kmEnv0 : KmEnv :=
  { newMnemonic := "m0"
    seedOf := fun s => "seed:" ++ s
    masterPrivOf := fun s => "mk:" ++ s
    pubOf := fun s => "pub:" ++ s
    childPrivOf := fun s c i => "child:" ++ s ++ ":" ++ toString c ++ ":" ++ toString i
    encrypt := fun s => "enc:" ++ s
    decrypt := fun s =>
      if s == "enc:mk:seed:m0" then some "mk:seed:m0"
      else if s == "enc:hotk" then some "hotk"
      else none
    deriveAddr := fun chain k => "addr:" ++ chain ++ ":" ++ k
    signData := fun p t => some ("sig:" ++ p ++ ":" ++ t) }

/-- An empty key-manager database. -/
def emptyKm : KmState :=
  { keys := [], nextKeyId := 1, sigRequests := [], nextSigReqId := 1, events := [] }

/-- Claim C8 counterexample: on a state with no master key,
`GenerateAddress` auto-creates the master (it exists afterwards), but what
the caller receives is only the pair (address, derivation path) — neither
component is the mnemonic `"m0"` the master-key generation produced, which
`GenerateAddress` binds to `_` and discards. -/
theorem C8_mnemonic_not_returned :
    (GenerateAddress kmEnv0 emptyKm 1 "ethereum").toOption.map
        (fun p => ((GetMasterKey p.1.keys 1 "ethereum").isSome, p.2.1, p.2.2))
      = some (true, "addr:ethereum:child:mk:seed:m0:60:0", "m/44\x27/60\x27/0\x27/0/0") ∧
    "addr:ethereum:child:mk:seed:m0:60:0" ≠ kmEnv0.newMnemonic ∧
    "m/44\x27/60\x27/0\x27/0/0" ≠ kmEnv0.newMnemonic := by
  refine ⟨by decide, by decide, by decide⟩

/-- Appending a master-typed key row does not change the derived-key count
that `GetNextDerivationIndex` takes. -/
theorem derivation_index_append_master (keys : List EncryptedKey) (m : EncryptedKey)
    (userId : Nat) (chain : String) (hm : m.keyType = "master") :
    GetNextDerivationIndex (keys ++ [m]) userId chain
      = GetNextDerivationIndex keys userId chain := by
  unfold GetNextDerivationIndex
  rw [List.filter_append]
  have hpm : (m.userId == userId && m.chain == chain && m.keyType == "derived") = false := by
    simp [hm]
  simp [List.filter_cons, hpm]

/-- Claim C8 as amended: when no master exists for (user, chain),
`GenerateAddress` creates and persists one — whose mnemonic it discards
rather than returning — and in both branches it decrypts the master, takes
the next index from the persisted derived-key count, persists the encrypted
derived key with path `m/44h/coinh/0h/0/index` and the chain-specific
address, and returns `(address, derivation_path)`. -/
theorem C8_amended_generateaddress (env : KmEnv) (st : KmState) (userId : Nat)
    (chain : String) :
    (GetMasterKey st.keys userId chain = none →
      env.decrypt (env.encrypt (env.masterPrivOf (env.seedOf env.newMnemonic)))
        = some (env.masterPrivOf (env.seedOf env.newMnemonic)) →
      ∃ st2 mrow drow,
        GenerateAddress env st userId chain
          = .ok (st2,
              env.deriveAddr chain (env.childPrivOf
                (env.masterPrivOf (env.seedOf env.newMnemonic)) (getCoinType chain)
                (GetNextDerivationIndex st.keys userId chain)),
              derivationPathStr (getCoinType chain)
                (GetNextDerivationIndex st.keys userId chain)) ∧
        st2.keys = st.keys ++ [mrow, drow] ∧
        mrow.keyType = "master" ∧ mrow.userId = userId ∧ mrow.chain = chain ∧
        mrow.encryptedPriv = env.encrypt (env.masterPrivOf (env.seedOf env.newMnemonic)) ∧
        drow.keyType = "derived" ∧ drow.userId = userId ∧ drow.chain = chain ∧
        drow.derivationPath = derivationPathStr (getCoinType chain)
          (GetNextDerivationIndex st.keys userId chain) ∧
        drow.address = env.deriveAddr chain (env.childPrivOf
          (env.masterPrivOf (env.seedOf env.newMnemonic)) (getCoinType chain)
          (GetNextDerivationIndex st.keys userId chain)) ∧
        drow.encryptedPriv = env.encrypt (env.childPrivOf
          (env.masterPrivOf (env.seedOf env.newMnemonic)) (getCoinType chain)
          (GetNextDerivationIndex st.keys userId chain))) ∧
    (∀ mk mpriv, GetMasterKey st.keys userId chain = some mk →
      env.decrypt mk.encryptedPriv = some mpriv →
      ∃ st2 drow,
        GenerateAddress env st userId chain
          = .ok (st2,
              env.deriveAddr chain (env.childPrivOf mpriv (getCoinType chain)
                (GetNextDerivationIndex st.keys userId chain)),
              derivationPathStr (getCoinType chain)
                (GetNextDerivationIndex st.keys userId chain)) ∧
        st2.keys = st.keys ++ [drow] ∧
        drow.keyType = "derived" ∧ drow.userId = userId ∧ drow.chain = chain ∧
        drow.derivationPath = derivationPathStr (getCoinType chain)
          (GetNextDerivationIndex st.keys userId chain) ∧
        drow.address = env.deriveAddr chain (env.childPrivOf mpriv (getCoinType chain)
          (GetNextDerivationIndex st.keys userId chain)) ∧
        drow.encryptedPriv = env.encrypt (env.childPrivOf mpriv (getCoinType chain)
          (GetNextDerivationIndex st.keys userId chain))) := by
  constructor
  · intro hm hdec
    have hidx := derivation_index_append_master st.keys
      { id := st.nextKeyId
        userId := userId
        chain := chain
        publicKey := env.pubOf (env.masterPrivOf (env.seedOf env.newMnemonic))
        encryptedPriv := env.encrypt (env.masterPrivOf (env.seedOf env.newMnemonic))
        keyType := "master"
        derivationPath := ""
        address := ""
        status := 1 } userId chain rfl
    simp only [GenerateAddress, GenerateMasterKey, hm, hdec, hidx]
    refine ⟨_,
      { id := st.nextKeyId
        userId := userId
        chain := chain
        publicKey := env.pubOf (env.masterPrivOf (env.seedOf env.newMnemonic))
        encryptedPriv := env.encrypt (env.masterPrivOf (env.seedOf env.newMnemonic))
        keyType := "master"
        derivationPath := ""
        address := ""
        status := 1 },
      { id := st.nextKeyId + 1
        userId := userId
        chain := chain
        publicKey := env.pubOf (env.childPrivOf
          (env.masterPrivOf (env.seedOf env.newMnemonic)) (getCoinType chain)
          (GetNextDerivationIndex st.keys userId chain))
        encryptedPriv := env.encrypt (env.childPrivOf
          (env.masterPrivOf (env.seedOf env.newMnemonic)) (getCoinType chain)
          (GetNextDerivationIndex st.keys userId chain))
        keyType := "derived"
        derivationPath := derivationPathStr (getCoinType chain)
          (GetNextDerivationIndex st.keys userId chain)
        address := env.deriveAddr chain (env.childPrivOf
          (env.masterPrivOf (env.seedOf env.newMnemonic)) (getCoinType chain)
          (GetNextDerivationIndex st.keys userId chain))
        status := 1 },
      rfl, ?_, rfl, rfl, rfl, rfl, rfl, rfl, rfl, rfl, rfl, rfl⟩
    simp
  · intro mk mpriv hm hdec
    simp only [GenerateAddress, hm, hdec]
    refine ⟨_,
      { id := st.nextKeyId
        userId := userId
        chain := chain
        publicKey := env.pubOf (env.childPrivOf mpriv (getCoinType chain)
          (GetNextDerivationIndex st.keys userId chain))
        encryptedPriv := env.encrypt (env.childPrivOf mpriv (getCoinType chain)
          (GetNextDerivationIndex st.keys userId chain))
        keyType := "derived"
        derivationPath := derivationPathStr (getCoinType chain)
          (GetNextDerivationIndex st.keys userId chain)
        address := env.deriveAddr chain (env.childPrivOf mpriv (getCoinType chain)
          (GetNextDerivationIndex st.keys userId chain))
        status := 1 },
      rfl, rfl, rfl, rfl, rfl, rfl, rfl, rfl⟩

/-- Witness for the amended C8: the fresh-master branch at the concrete
environment and empty database. -/
theorem C8_amended_generateaddress_witness :
    ∃ st2 mrow drow,
      GenerateAddress kmEnv0 emptyKm 1 "ethereum"
        = .ok (st2,
            kmEnv0.deriveAddr "ethereum" (kmEnv0.childPrivOf
              (kmEnv0.masterPrivOf (kmEnv0.seedOf kmEnv0.newMnemonic)) (getCoinType "ethereum")
              (GetNextDerivationIndex emptyKm.keys 1 "ethereum")),
            derivationPathStr (getCoinType "ethereum")
              (GetNextDerivationIndex emptyKm.keys 1 "ethereum")) ∧
      st2.keys = emptyKm.keys ++ [mrow, drow] ∧
      mrow.keyType = "master" ∧ mrow.userId = 1 ∧ mrow.chain = "ethereum" ∧
      mrow.encryptedPriv = kmEnv0.encrypt (kmEnv0.masterPrivOf (kmEnv0.seedOf kmEnv0.newMnemonic)) ∧
      drow.keyType = "derived" ∧ drow.userId = 1 ∧ drow.chain = "ethereum" ∧
      drow.derivationPath = derivationPathStr (getCoinType "ethereum")
        (GetNextDerivationIndex emptyKm.keys 1 "ethereum") ∧
      drow.address = kmEnv0.deriveAddr "ethereum" (kmEnv0.childPrivOf
        (kmEnv0.masterPrivOf (kmEnv0.seedOf kmEnv0.newMnemonic)) (getCoinType "ethereum")
        (GetNextDerivationIndex emptyKm.keys 1 "ethereum")) ∧
      drow.encryptedPriv = kmEnv0.encrypt (kmEnv0.childPrivOf
        (kmEnv0.masterPrivOf (kmEnv0.seedOf kmEnv0.newMnemonic)) (getCoinType "ethereum")
        (GetNextDerivationIndex emptyKm.keys 1 "ethereum")) :=
  (C8_amended_generateaddress kmEnv0 emptyKm 1 "ethereum").1 rfl (by decide)

/-! ## Claim C9: SignatureRequest before signing -/

/-- `Sign` never touches the `signature_requests` table and appends at most
one `signaturePerformed` event. -/
theorem Sign_effect (env : KmEnv) (s : KmState) (u : Nat) (c a t : String) :
    (Sign env s u c a t).1.sigRequests = s.sigRequests ∧
    ((Sign env s u c a t).1.events = s.events ∨
     (Sign env s u c a t).1.events = s.events ++ [.signaturePerformed c a t]) := by
  unfold Sign
  split
  · simp
  · split
    · simp
    · split
      · simp
      · split
        · simp
        · simp

/-- The reserved hot-wallet key of the C9 run: owned by user 0, stored
under the empty address the processor uses as its hot-wallet placeholder. -/
def c9Key : EncryptedKey :=
  { id := 1
    userId := 0
    chain := "ethereum"
    publicKey := "pub"
    encryptedPriv := "enc:hotk"
    keyType := "derived"
    derivationPath := ""
    address := ""
    status := 1 }

/-- Key-manager state for the C9 runs: the hot-wallet key, no signature
requests, an empty trace. -/
def c9Km : KmState :=
  { keys := [c9Key], nextKeyId := 2, sigRequests := [], nextSigReqId := 1, events := [] }

/-- The adapter of the C9 counterexample: building and broadcasting both
succeed. -/
def c9Adapter : ChainAdapter :=
  { requiredConfirmations := 12
    estimateFee := fun _ _ _ => none
    getTransaction := fun _ => none
    getBlockNumber := none
    buildTransaction := fun _ _ _ _ => .ok "raw"
    broadcastTransaction := fun _ => .ok "0xbroadcast"
    hasBlock := false
    getBlock := fun _ => none
    hasLogs := false
    getLogs := fun _ _ => .error "unused" }

/-- The approved withdrawal the C9 processor run picks up. -/
def c9Withdrawal : Withdrawal :=
  { id := 1
    uuid := "u1"
    userId := 1
    walletId := 1
    chain := "ethereum"
    txHash := ""
    fromAddress := ""
    toAddress := "0xB"
    currency := "ETH"
    contractAddress := ""
    amount := 10
    fee := none
    status := .approved
    riskLevel := 0
    riskReview := false
    manualReview := false
    confirmations := 0
    blockNumber := 0
    memo := ""
    errorMsg := ""
    createdDay := 0
    completedAt := none }

/-- Withdrawal-service state for the C9 counterexample. -/
def c9WState : WState :=
  { ledger := fun _ => none
    withdrawals := [c9Withdrawal]
    limits := []
    risk := emptyRisk }

/-- Claim C9 counterexample: one full run of the withdrawal processor signs
(the trace holds a `signaturePerformed` event) and broadcasts, yet the
`signature_requests` table stays empty and the trace violates the
pending-request-before-signing discipline — the processor calls plain
`Sign`, never `SignWithRequestID`. -/
theorem C9_processor_signs_without_request :
    (processWithdrawal (fun c => if c == "ethereum" then some c9Adapter else none)
        kmEnv0 c9Km c9WState c9Withdrawal).1.events
      = [KmEvent.signaturePerformed "ethereum" "" "raw"] ∧
    (processWithdrawal (fun c => if c == "ethereum" then some c9Adapter else none)
        kmEnv0 c9Km c9WState c9Withdrawal).1.sigRequests = [] ∧
    signEventsPreceded
      (processWithdrawal (fun c => if c == "ethereum" then some c9Adapter else none)
        kmEnv0 c9Km c9WState c9Withdrawal).1.events = false ∧
    ((processWithdrawal (fun c => if c == "ethereum" then some c9Adapter else none)
        kmEnv0 c9Km c9WState c9Withdrawal).2.1.withdrawals.map
      (fun w => (w.status, w.txHash)))
      = [(WithdrawalStatus.broadcast, "0xbroadcast")] ∧
    (processWithdrawal (fun c => if c == "ethereum" then some c9Adapter else none)
        kmEnv0 c9Km c9WState c9Withdrawal).2.2 = none := by
  refine ⟨rfl, rfl, rfl, rfl, rfl⟩

/-- Claim C9 as amended: `SignWithRequestID` does create the Pending
`signature_requests` row before the signature attempt and transitions it to
Signed on success and Failed on error (given a fresh primary id); the trace
events it adds start with the pending-row creation and satisfy the
pending-before-signing discipline.  The withdrawal processor, by contrast,
signs through plain `Sign` with no SignatureRequest at all (the C9
counterexample). -/
theorem C9_amended_sign_with_request_pending_first (env : KmEnv) (st : KmState)
    (requestId : String) (userId : Nat) (chain address txData : String) (now : Nat)
    (key : EncryptedKey)
    (hk : GetKeyByAddress st.keys chain address = some key)
    (hfresh : ∀ r ∈ st.sigRequests, r.id ≠ st.nextSigReqId) :
    ∃ req err,
      (SignWithRequestID env st requestId userId chain address txData now).2
        = .completed req err ∧
      req.requestId = requestId ∧
      ((err = none ∧ req.status = .signed) ∨ (∃ e, err = some e ∧ req.status = .failed)) ∧
      (SignWithRequestID env st requestId userId chain address txData now).1.sigRequests
        = st.sigRequests ++ [req] ∧
      ∃ newEvs,
        (SignWithRequestID env st requestId userId chain address txData now).1.events
          = st.events ++ newEvs ∧
        signEventsPreceded newEvs = true ∧
        newEvs.head? = some (.sigRequestCreated requestId .pending) := by
  simp only [SignWithRequestID, hk]
  have heff := Sign_effect env
    { st with
      sigRequests := st.sigRequests ++
        [{ id := st.nextSigReqId
           requestId := requestId
           userId := userId
           keyId := key.id
           chain := chain
           txHash := ""
           rawTx := txData
           signedTx := ""
           status := .pending
           errorMsg := ""
           requestedAt := now
           signedAt := none }]
      nextSigReqId := st.nextSigReqId + 1
      events := st.events ++ [.sigRequestCreated requestId .pending] }
    userId chain address txData
  rcases hsig : (Sign env
      { st with
        sigRequests := st.sigRequests ++
          [{ id := st.nextSigReqId
             requestId := requestId
             userId := userId
             keyId := key.id
             chain := chain
             txHash := ""
             rawTx := txData
             signedTx := ""
             status := .pending
             errorMsg := ""
             requestedAt := now
             signedAt := none }]
        nextSigReqId := st.nextSigReqId + 1
        events := st.events ++ [.sigRequestCreated requestId .pending] }
      userId chain address txData).2 with e | sig
  all_goals simp only [hsig, UpdateSignatureRequest]
  · refine ⟨_, some e, rfl, rfl, Or.inr ⟨e, rfl, rfl⟩, ?_, ?_⟩
    · show ((Sign env _ userId chain address txData).1.sigRequests).map _
        = st.sigRequests ++ _
      rw [heff.1]
      show (st.sigRequests ++ _).map _ = _
      rw [List.map_append, map_update_sigreq_of_fresh st.sigRequests st.nextSigReqId _ hfresh]
      simp
    · rcases heff.2 with hev | hev
      · exact ⟨[.sigRequestCreated requestId .pending], hev, rfl, rfl⟩
      · refine ⟨[.sigRequestCreated requestId .pending,
          .signaturePerformed chain address txData], ?_, rfl, rfl⟩
        rw [hev]
        show (st.events ++ [KmEvent.sigRequestCreated requestId SignStatus.pending])
          ++ [KmEvent.signaturePerformed chain address txData] = _
        rw [List.append_assoc]
        rfl
  · refine ⟨_, none, rfl, rfl, Or.inl ⟨rfl, rfl⟩, ?_, ?_⟩
    · show ((Sign env _ userId chain address txData).1.sigRequests).map _
        = st.sigRequests ++ _
      rw [heff.1]
      show (st.sigRequests ++ _).map _ = _
      rw [List.map_append, map_update_sigreq_of_fresh st.sigRequests st.nextSigReqId _ hfresh]
      simp
    · rcases heff.2 with hev | hev
      · exact ⟨[.sigRequestCreated requestId .pending], hev, rfl, rfl⟩
      · refine ⟨[.sigRequestCreated requestId .pending,
          .signaturePerformed chain address txData], ?_, rfl, rfl⟩
        rw [hev]
        show (st.events ++ [KmEvent.sigRequestCreated requestId SignStatus.pending])
          ++ [KmEvent.signaturePerformed chain address txData] = _
        rw [List.append_assoc]
        rfl

/-- Witness for the amended C9 at the concrete hot-wallet key state. -/
theorem C9_amended_sign_with_request_pending_first_witness :
    ∃ req err,
      (SignWithRequestID kmEnv0 c9Km "rid-1" 0 "ethereum" "" "raw" 3).2
        = .completed req err ∧
      req.requestId = "rid-1" ∧
      ((err = none ∧ req.status = .signed) ∨ (∃ e, err = some e ∧ req.status = .failed)) ∧
      (SignWithRequestID kmEnv0 c9Km "rid-1" 0 "ethereum" "" "raw" 3).1.sigRequests
        = c9Km.sigRequests ++ [req] ∧
      ∃ newEvs,
        (SignWithRequestID kmEnv0 c9Km "rid-1" 0 "ethereum" "" "raw" 3).1.events
          = c9Km.events ++ newEvs ∧
        signEventsPreceded newEvs = true ∧
        newEvs.head? = some (.sigRequestCreated "rid-1" .pending) :=
  C9_amended_sign_with_request_pending_first kmEnv0 c9Km "rid-1" 0 "ethereum" "" "raw" 3
    c9Key rfl (fun r hr => absurd hr (by simp [c9Km]))

end CW
